import Mathlib

/-!
Verification development for the bugscanx-go repository.

Strings from the Go source are modelled as `List Char`; Go's byte/rune
distinction is irrelevant for the ASCII data handled here.  Each definition
carries a comment naming the Go function it embeds.
-/

set_option autoImplicit false
set_option maxRecDepth 10000

namespace BugscanX

/-- Character class of Go's `unicode.IsSpace` restricted to the Latin-1 range,
which is the only range the scanner's ASCII protocol data can contain. -/
def isGoSpace (c : Char) : Bool :=
  c = ' ' || c = '\t' || c = '\n' || c = Char.ofNat 11 || c = Char.ofNat 12 ||
  c = '\r' || c = Char.ofNat 0x85 || c = Char.ofNat 0xA0

/-- Embedding of Go `strings.Split(s, sep)` for a one-character separator:
splits around every occurrence, keeping empty pieces; the result is never
empty (splitting the empty string yields one empty piece). -/
def splitChar (sep : Char) : List Char → List (List Char)
  | [] => [[]]
  | c :: rest =>
    if c = sep then [] :: splitChar sep rest
    else
      match splitChar sep rest with
      | [] => [[c]]
      | r :: rs => (c :: r) :: rs

/-- Helper for `goFields`: accumulates the current word (reversed). -/
def goFieldsAux : List Char → List Char → List (List Char)
  | [], [] => []
  | [], acc => [acc.reverse]
  | c :: rest, acc =>
    if isGoSpace c then
      match acc with
      | [] => goFieldsAux rest []
      | _ => acc.reverse :: goFieldsAux rest []
    else goFieldsAux rest (c :: acc)

/-- Embedding of Go `strings.Fields`: the maximal runs of non-whitespace
characters, in order. -/
def goFields (s : List Char) : List (List Char) :=
  goFieldsAux s []

/-- Embedding of Go `strings.TrimSpace`: drops leading and trailing
whitespace. -/
def goTrimSpace (s : List Char) : List Char :=
  ((s.dropWhile isGoSpace).reverse.dropWhile isGoSpace).reverse

/-- Parses a non-empty all-digit string as a natural number
(most significant digit first); `none` on the empty string or a non-digit. -/
def digitsToNat : List Char → Option Nat
  | [] => none
  | [c] => if c.isDigit then some (c.toNat - 48) else none
  | c :: rest =>
    if c.isDigit then
      (digitsToNat rest).map (fun n => (c.toNat - 48) * 10 ^ rest.length + n)
    else none

/-- Embedding of Go `strconv.Atoi` (64-bit platform): optional sign, at
least one digit, and the value must fit in a signed 64-bit integer;
otherwise an error (here: `none`). -/
def goAtoi (s : List Char) : Option Int :=
  match s with
  | '+' :: rest =>
    (digitsToNat rest).bind fun n =>
      if (n : Int) ≤ 2 ^ 63 - 1 then some (n : Int) else none
  | '-' :: rest =>
    (digitsToNat rest).bind fun n =>
      if (n : Int) ≤ 2 ^ 63 then some (-(n : Int)) else none
  | _ =>
    (digitsToNat s).bind fun n =>
      if (n : Int) ≤ 2 ^ 63 - 1 then some (n : Int) else none

/-- ASCII case mapping of Go `strings.ToLower`; the protocol bytes compared
against `"server:"` and `"location:"` are ASCII. -/
def toLowerAscii (c : Char) : Char :=
  if 'A' ≤ c && c ≤ 'Z' then Char.ofNat (c.toNat + 32) else c

/-- Embedding of Go `strings.Contains(s, pat)`: some contiguous run of `s`
equals `pat`. -/
def containsStr (s pat : List Char) : Bool :=
  pat.isPrefixOf s ||
    match s with
    | [] => false
    | _ :: rest => containsStr rest pat

/-! ### Direct probe response parsing (src/cmd/scan_direct.go, extractHTTPHeaders) -/

/-- Embedding of the header-scanning loop of `extractHTTPHeaders`
(scan_direct.go lines 82-93): walks the lines after the status line,
trimming each; stops at the first blank line; a line whose lowercased form
starts with `server:` (resp. `location:`) overwrites the server
(resp. location) value with the trimmed remainder after the colon. -/
def scanHeaderLines : List (List Char) → List Char × List Char → List Char × List Char
  | [], st => st
  | l :: rest, (srv, loc) =>
    let t := goTrimSpace l
    if t = [] then (srv, loc)
    else if ('s' :: 'e' :: 'r' :: 'v' :: 'e' :: 'r' :: ':' :: []).isPrefixOf (t.map toLowerAscii) then
      scanHeaderLines rest (goTrimSpace (t.drop 7), loc)
    else if ('l' :: 'o' :: 'c' :: 'a' :: 't' :: 'i' :: 'o' :: 'n' :: ':' :: []).isPrefixOf (t.map toLowerAscii) then
      scanHeaderLines rest (srv, goTrimSpace (t.drop 9))
    else scanHeaderLines rest (srv, loc)

/-- Embedding of `extractHTTPHeaders` (scan_direct.go lines 70-96): split the
response on newlines; the status code is the second whitespace-delimited
field of the first line parsed by `Atoi` (0 when absent or unparseable);
`Server` and `Location` come from scanning the remaining lines up to the
first blank line. -/
def extractHTTPHeaders (response : List Char) : Int × List Char × List Char :=
  let lines := splitChar '\n' response
  let statusCode : Int :=
    match lines with
    | [] => 0
    | l0 :: _ =>
      match goFields l0 with
      | _ :: p1 :: _ => (goAtoi p1).getD 0
      | _ => 0
  let sl := scanHeaderLines lines.tail ([], [])
  (statusCode, sl.1, sl.2)

/-- Modelled from the spec: "status code: second whitespace-delimited token
of the first line, parsed as integer (0 if absent/unparseable)". -/
def specStatusCode (response : List Char) : Int :=
  match goFields ((splitChar '\n' response).headD []) with
  | _ :: p1 :: _ => (goAtoi p1).getD 0
  | _ => 0

/-- Helper: the status-code component of `extractHTTPHeaders` agrees with the
spec-worded extraction rule. -/
theorem statusCode_eq_spec (resp : List Char) :
    (extractHTTPHeaders resp).1 = specStatusCode resp := by
  unfold extractHTTPHeaders specStatusCode
  cases h : splitChar '\n' resp with
  | nil => simp [h, goFields, goFieldsAux]
  | cons l0 ls => simp [h]

/-- Unfolding equation for `scanHeaderLines` on a non-empty line list. -/
theorem scanHeaderLines_cons (l : List Char) (rest : List (List Char))
    (srv loc : List Char) :
    scanHeaderLines (l :: rest) (srv, loc) =
      (if goTrimSpace l = [] then (srv, loc)
       else if ('s' :: 'e' :: 'r' :: 'v' :: 'e' :: 'r' :: ':' :: []).isPrefixOf
          ((goTrimSpace l).map toLowerAscii) then
        scanHeaderLines rest (goTrimSpace ((goTrimSpace l).drop 7), loc)
       else if ('l' :: 'o' :: 'c' :: 'a' :: 't' :: 'i' :: 'o' :: 'n' :: ':' :: []).isPrefixOf
          ((goTrimSpace l).map toLowerAscii) then
        scanHeaderLines rest (srv, goTrimSpace ((goTrimSpace l).drop 9))
       else scanHeaderLines rest (srv, loc)) := rfl

/-- Helper: header scanning never looks past the first blank line. -/
theorem scanHeaderLines_stops_at_blank (l₁ l₂ : List (List Char))
    (st : List Char × List Char) (h : ∀ x ∈ l₁, goTrimSpace x ≠ []) :
    scanHeaderLines (l₁ ++ [] :: l₂) st = scanHeaderLines l₁ st := by
  induction l₁ generalizing st with
  | nil => simp [scanHeaderLines, goTrimSpace]
  | cons l ls ih =>
    obtain ⟨srv, loc⟩ := st
    have hl : goTrimSpace l ≠ [] := h l (by simp)
    have hls : ∀ x ∈ ls, goTrimSpace x ≠ [] := fun x hx => h x (by simp [hx])
    rw [List.cons_append, scanHeaderLines_cons, scanHeaderLines_cons,
      if_neg hl, if_neg hl]
    split_ifs <;> exact ih _ hls

/-- C5: parsing the literal response buffer yields status 200, server
`nginx`, location `https://x`; the empty response yields status 0 and empty
server/location; for every response the status code is the second
whitespace-delimited token of the first line parsed as an integer (0 when
absent or unparseable); and header scanning stops at the first blank line. -/
theorem direct_probe_parsing_ok :
    extractHTTPHeaders ("HTTP/1.1 200 OK\r\nServer: nginx\r\nLocation: https://x\r\n\r\n<body>".toList) =
        (200, "nginx".toList, "https://x".toList) ∧
    extractHTTPHeaders [] = (0, [], []) ∧
    (∀ resp : List Char, (extractHTTPHeaders resp).1 = specStatusCode resp) ∧
    (∀ (l₁ l₂ : List (List Char)) (st : List Char × List Char),
        (∀ x ∈ l₁, goTrimSpace x ≠ []) →
        scanHeaderLines (l₁ ++ [] :: l₂) st = scanHeaderLines l₁ st) :=
  ⟨by decide, by decide, statusCode_eq_spec, scanHeaderLines_stops_at_blank⟩

/-- Witness for C5 at a concrete instance: scanning stops at the blank line
between a `Server` header and trailing junk. -/
theorem direct_probe_parsing_ok_witness :
    scanHeaderLines (["Server: nginx".toList] ++ [] :: ["junk".toList]) ([], []) =
      scanHeaderLines ["Server: nginx".toList] ([], []) :=
  direct_probe_parsing_ok.2.2.2 ["Server: nginx".toList] ["junk".toList] ([], []) (by decide)

/-! ### Relay and CDN-TLS response capture and classification
(src/cmd/scan_proxy.go lines 184-230, src/cmd/scan_cdn_ssl.go lines 146-187) -/

/-- Embedding of the shared response-reading loop of `scanProxy` and
`scanCdnSsl`: lines are consumed until the first blank line; the first
non-blank line is always kept (the `isPrefix` flag starts true and is
cleared on the first keep), later lines are kept only when they start with
`Location` or `Server`. -/
def captureLines : List (List Char) → Bool → List (List Char)
  | [], _ => []
  | l :: rest, isFirst =>
    if l = [] then []
    else if isFirst || ("Location".toList.isPrefixOf l) || ("Server".toList.isPrefixOf l) then
      l :: captureLines rest false
    else captureLines rest isFirst

/-- Observable outcome of one exchange: the result recorded via
`ScanSuccess` (if any) and the lines printed via `Log`. -/
structure ExchangeResult where
  recorded : Option (List Char)
  logged : List (List Char)
deriving DecidableEq, Repr

/-- Left-justified padding of Go's `%-32s`-style format verbs. -/
def padRightTo (w : Nat) (s : List Char) : List Char :=
  s ++ List.replicate (w - s.length) ' '

/-- Embedding of the exchange goroutine of `scanProxy` (scan_proxy.go lines
184-230), abstracting the network into the write outcome and the list of
lines the response scanner yields: on write failure nothing is recorded or
logged; otherwise the captured lines are classified — none captured means
failure, a first line containing ` 302 ` is dropped silently, and any other
first line records and logs `%-32s %s` of host:port and the captured lines
joined by ` -- `. -/
def scanProxyExchange (proxyHostPort : List Char) (writeOk : Bool)
    (rawLines : List (List Char)) : ExchangeResult :=
  if !writeOk then ⟨none, []⟩ else
  match captureLines rawLines true with
  | [] => ⟨none, []⟩
  | l0 :: ls =>
    if containsStr l0 (" 302 ".toList) then ⟨none, []⟩
    else
      let resultString :=
        padRightTo 32 proxyHostPort ++ ' ' :: List.intercalate (" -- ".toList) (l0 :: ls)
      ⟨some resultString, [resultString]⟩

/-- Embedding of the exchange goroutine of the `scanCdnSsl` variant at
scan_cdn_ssl.go lines 146-187: after a successful write, the formatted line
`%-32s  %s` is always logged; it is recorded via `ScanSuccess` exactly when
at least one line was captured and the first one contains ` 101 `. -/
def scanCdnSslExchange (proxyHostPort : List Char) (writeOk : Bool)
    (rawLines : List (List Char)) : ExchangeResult :=
  if !writeOk then ⟨none, []⟩ else
  let responseLines := captureLines rawLines true
  let formatted :=
    padRightTo 32 proxyHostPort ++ ' ' :: ' ' :: List.intercalate (" -- ".toList) responseLines
  match responseLines with
  | [] => ⟨none, [formatted]⟩
  | l0 :: _ =>
    if !containsStr l0 (" 101 ".toList) then ⟨none, [formatted]⟩
    else ⟨some formatted, [formatted]⟩

/-- C2: in the plain relay probe, when at least one response line is
captured, a first line containing ` 302 ` never records a success, and a
first line not containing ` 302 ` records the formatted result and logs
it. -/
theorem proxy_relay_classification (hp : List Char) (raw : List (List Char))
    (l0 : List Char) (ls : List (List Char))
    (hcap : captureLines raw true = l0 :: ls) :
    (containsStr l0 (" 302 ".toList) = true →
      (scanProxyExchange hp true raw).recorded = none) ∧
    (containsStr l0 (" 302 ".toList) = false →
      (scanProxyExchange hp true raw).recorded =
          some (padRightTo 32 hp ++ ' ' :: List.intercalate (" -- ".toList) (l0 :: ls)) ∧
        (scanProxyExchange hp true raw).logged =
          [padRightTo 32 hp ++ ' ' :: List.intercalate (" -- ".toList) (l0 :: ls)]) := by
  unfold scanProxyExchange
  rw [hcap]
  constructor
  · intro h302
    have h : containsStr l0 [' ', '3', '0', '2', ' '] = true := h302
    simp [h]
  · intro h302
    have h : containsStr l0 [' ', '3', '0', '2', ' '] = false := h302
    simp [h]

/-- Witness for C2: a `101` status line through the plain relay is treated
like any other non-302 line and is recorded. -/
theorem proxy_relay_classification_witness :
    (containsStr ("HTTP/1.1 101 Switching Protocols".toList) (" 302 ".toList) = true →
      (scanProxyExchange ("1.2.3.4:80".toList) true
        [("HTTP/1.1 101 Switching Protocols".toList)]).recorded = none) ∧
    (containsStr ("HTTP/1.1 101 Switching Protocols".toList) (" 302 ".toList) = false →
      (scanProxyExchange ("1.2.3.4:80".toList) true
          [("HTTP/1.1 101 Switching Protocols".toList)]).recorded =
        some (padRightTo 32 ("1.2.3.4:80".toList) ++
          ' ' :: List.intercalate (" -- ".toList) [("HTTP/1.1 101 Switching Protocols".toList)]) ∧
      (scanProxyExchange ("1.2.3.4:80".toList) true
          [("HTTP/1.1 101 Switching Protocols".toList)]).logged =
        [padRightTo 32 ("1.2.3.4:80".toList) ++
          ' ' :: List.intercalate (" -- ".toList) [("HTTP/1.1 101 Switching Protocols".toList)]]) :=
  proxy_relay_classification ("1.2.3.4:80".toList)
    [("HTTP/1.1 101 Switching Protocols".toList)]
    ("HTTP/1.1 101 Switching Protocols".toList) [] (by decide)

/-- C3: in the CDN-TLS probe a success is recorded exactly when at least one
response line is captured and the first one contains ` 101 `; in every case
after a successful write the formatted line is logged. -/
theorem cdn_ssl_101_criterion (hp : List Char) (raw : List (List Char)) :
    ((scanCdnSslExchange hp true raw).recorded ≠ none ↔
      ∃ l0 ls, captureLines raw true = l0 :: ls ∧ containsStr l0 (" 101 ".toList) = true) ∧
    (scanCdnSslExchange hp true raw).logged =
      [padRightTo 32 hp ++ ' ' :: ' ' ::
        List.intercalate (" -- ".toList) (captureLines raw true)] := by
  unfold scanCdnSslExchange
  cases hcap : captureLines raw true with
  | nil => simp
  | cons l0 ls =>
    cases h101 : containsStr l0 [' ', '1', '0', '1', ' '] with
    | false => simp [h101]
    | true => simp [h101]

/-! ### Connect retry loops
(src/cmd/scan_proxy.go lines 145-175, src/cmd/scan_cdn_ssl.go lines 94-122,
src/cmd/scan_sni.go lines 56-74) -/

/-- Possible outcomes of one `net.DialTimeout` call, as the probes
distinguish them. -/
inductive DialOutcome where
  | ok
  | timeout
  | dnsError
  | unreachable
  | otherError
deriving DecidableEq, Repr

/-- Result of a probe's connect loop: either a connection was obtained or
the target was abandoned; in both cases the number of dial attempts made is
recorded.  An `abandoned` result makes the probe return immediately, before
the exchange phase, so nothing is recorded via `ScanSuccess` and no result
is produced. -/
inductive DialResult where
  | connected (attempts : Nat)
  | abandoned (attempts : Nat)
deriving DecidableEq, Repr

/-- Embedding of the connect loop of `scanProxy` (scan_proxy.go lines
145-175; `scanCdnSsl` at scan_cdn_ssl.go lines 94-122 is identical):
`dialCount` is incremented, the loop gives up once it exceeds 3, a DNS
error returns immediately, a timeout retries, a `network is unreachable`
syscall error returns immediately, and any other error returns immediately.
The oracle gives the outcome of the i-th dial. -/
def proxyDialLoopGo (oracle : Nat → DialOutcome) (dialCount : Nat) : DialResult :=
  let dc := dialCount + 1
  if _h : dc > 3 then .abandoned dialCount
  else
    match oracle dc with
    | .dnsError => .abandoned dc
    | .timeout => proxyDialLoopGo oracle dc
    | .unreachable => .abandoned dc
    | .otherError => .abandoned dc
    | .ok => .connected dc
termination_by 4 - dialCount
decreasing_by omega

/-- Entry point of the proxy/CDN connect loop (`dialCount := 0`). -/
def proxyDialLoop (oracle : Nat → DialOutcome) : DialResult :=
  proxyDialLoopGo oracle 0

/-- Embedding of the connect loop of `scanSNI` (scan_sni.go lines 56-74):
identical ceiling, but every non-timeout error is handled by the single
final `return` (there is no DNS or unreachable special case). -/
def sniDialLoopGo (oracle : Nat → DialOutcome) (dialCount : Nat) : DialResult :=
  let dc := dialCount + 1
  if _h : dc > 3 then .abandoned dialCount
  else
    match oracle dc with
    | .timeout => sniDialLoopGo oracle dc
    | .ok => .connected dc
    | _ => .abandoned dc
termination_by 4 - dialCount
decreasing_by omega

/-- Entry point of the SNI connect loop. -/
def sniDialLoop (oracle : Nat → DialOutcome) : DialResult :=
  sniDialLoopGo oracle 0

/-- C4: for the relay, CDN-TLS and SNI probes, a connect path that always
times out is dialed exactly 3 times and then abandoned (hence no result and
no success), and any non-timeout, non-successful first dial outcome is
terminal after exactly one attempt — only timeouts retry. -/
theorem dial_retry_ceiling (oracle : Nat → DialOutcome) :
    ((∀ i, oracle i = .timeout) →
      proxyDialLoop oracle = .abandoned 3 ∧ sniDialLoop oracle = .abandoned 3) ∧
    (oracle 1 ≠ .timeout → oracle 1 ≠ .ok →
      proxyDialLoop oracle = .abandoned 1 ∧ sniDialLoop oracle = .abandoned 1) := by
  constructor
  · intro h
    constructor
    · unfold proxyDialLoop
      rw [proxyDialLoopGo, proxyDialLoopGo, proxyDialLoopGo, proxyDialLoopGo]
      simp [h 1, h 2, h 3]
    · unfold sniDialLoop
      rw [sniDialLoopGo, sniDialLoopGo, sniDialLoopGo, sniDialLoopGo]
      simp [h 1, h 2, h 3]
  · intro h1 h2
    constructor
    · unfold proxyDialLoop
      rw [proxyDialLoopGo]
      cases ho : oracle 1 <;> simp_all
    · unfold sniDialLoop
      rw [sniDialLoopGo]
      cases ho : oracle 1 <;> simp_all

/-- Witness for C4: the always-timeout oracle makes all three loops abandon
after exactly 3 attempts. -/
theorem dial_retry_ceiling_witness :
    proxyDialLoop (fun _ => .timeout) = .abandoned 3 ∧
      sniDialLoop (fun _ => .timeout) = .abandoned 3 :=
  (dial_retry_ceiling (fun _ => .timeout)).1 (fun _ => rfl)

/-! ### CIDR expansion (src/cmd/root.go ipListFromCidr, src/cmd/utils.go
IPsFromCIDR and ipInc; both bodies are identical) -/

/-- Decimal digit character. -/
def digitChar (n : Nat) : Char := Char.ofNat (48 + n)

/-- Fuel-driven decimal rendering helper (most significant digit first). -/
def natToDecAux : Nat → Nat → List Char
  | 0, _ => []
  | fuel + 1, n =>
    if n < 10 then [digitChar n]
    else natToDecAux fuel (n / 10) ++ [digitChar (n % 10)]

/-- Decimal rendering of a natural number, as Go prints IPv4 octets. -/
def natToDec (n : Nat) : List Char := natToDecAux (n + 1) n

/-- Embedding of Go `net.IP.String()` on a 4-byte IPv4 address (modelled as
the list of its octet values): dotted decimal. -/
def ipToString (ip : List Nat) : List Char :=
  List.intercalate ['.'] (ip.map natToDec)

/-- Embedding of `ipInc` (root.go lines 114-121): increment the byte slice
from its last byte, carrying while a byte wraps to zero.  Operates on the
reversed list. -/
def ipIncRev : List Nat → List Nat
  | [] => []
  | b :: rest =>
    if (b + 1) % 256 > 0 then ((b + 1) % 256) :: rest
    else ((b + 1) % 256) :: ipIncRev rest

/-- Increment of an IPv4 address held as its list of octets. -/
def ipInc (ip : List Nat) : List Nat := (ipIncRev ip.reverse).reverse

/-- Byte `i` of the Go `net.CIDRMask(n, 32)` mask: `bits` is the number of
mask bits falling in this byte. -/
def maskByte (bits : Nat) : Nat := 256 - 2 ^ (8 - min bits 8)

/-- Embedding of Go `net.CIDRMask(n, 32)` as four octet values. -/
def maskBytes (n : Nat) : List Nat :=
  [maskByte n, maskByte (n - 8), maskByte (n - 16), maskByte (n - 24)]

/-- Embedding of Go `net.IP.Mask`: byte-wise AND. -/
def ipMask (ip mask : List Nat) : List Nat :=
  List.zipWith (fun b m => b.land m) ip mask

/-- Embedding of the collection loop of `ipListFromCidr` (root.go lines
152-156): starting from the masked base address, collect the string of every
address whose masked form equals the network (Go `ipnet.Contains`),
incrementing with `ipInc`.  The Go loop is unbounded; the fuel used below
(2^32 + 1) exceeds the number of distinct IPv4 addresses plus one, so every
terminating Go execution of the loop is reproduced exactly. -/
def cidrLoop (network mask : List Nat) : List Nat → Nat → List (List Char)
  | _, 0 => []
  | current, fuel + 1 =>
    if ipMask current mask = network then
      ipToString current :: cidrLoop network mask (ipInc current) fuel
    else []

/-- Embedding of `ipListFromCidr` after CIDR parsing (root.go lines
152-163): run the collection loop, then return the list unchanged when it
has at most one element and strip its first and last elements otherwise. -/
def ipListFromParsed (base : List Nat) (maskLen : Nat) : List (List Char) :=
  let mask := maskBytes maskLen
  let network := ipMask base mask
  let ips := cidrLoop network mask network (2 ^ 32 + 1)
  if ips.length ≤ 1 then ips else (ips.drop 1).dropLast

/-- Parses one dotted-quad octet as Go `net.ParseCIDR` accepts it: one to
three decimal digits, no leading zero, value at most 255. -/
def parseOctet (s : List Char) : Option Nat :=
  match s with
  | [] => none
  | '0' :: _ :: _ => none
  | _ =>
    if s.length ≤ 3 then
      (digitsToNat s).bind fun n => if n ≤ 255 then some n else none
    else none

/-- Parses a dotted-quad IPv4 address into its four octet values. -/
def parseIPv4 (s : List Char) : Option (List Nat) :=
  match (splitChar '.' s).mapM parseOctet with
  | some l => if l.length = 4 then some l else none
  | none => none

/-- Embedding of `ipListFromCidr` (root.go lines 146-163) from the CIDR
string: parse `A.B.C.D/n` (Go `net.ParseCIDR`), then expand. -/
def ipListFromCidr (s : List Char) : Option (List (List Char)) :=
  match splitChar '/' s with
  | [ipPart, lenPart] =>
    match parseIPv4 ipPart, parseOctet lenPart with
    | some base, some n => if n ≤ 32 then some (ipListFromParsed base n) else none
    | _, _ => none
  | _ => none

set_option maxRecDepth 10000 in
/-- C7: expanding `192.168.1.0/24` yields exactly the 254 addresses
`192.168.1.1` … `192.168.1.254` (network `.0` and broadcast `.255`
excluded), and expanding `10.0.0.5/32` yields exactly `["10.0.0.5"]`. -/
theorem cidr_expansion_concrete :
    ipListFromCidr ("192.168.1.0/24".toList) =
      some ((List.range 254).map fun i => "192.168.1.".toList ++ natToDec (i + 1)) ∧
    ipListFromCidr ("10.0.0.5/32".toList) = some ["10.0.0.5".toList] := by
  constructor
  · decide
  · decide

/-- Unfolding equation for one iteration of the collection loop. -/
theorem cidrLoop_succ (network mask current : List Nat) (fuel : Nat) :
    cidrLoop network mask current (fuel + 1) =
      (if ipMask current mask = network then
        ipToString current :: cidrLoop network mask (ipInc current) fuel
      else []) := rfl

/-- Helper: AND with the all-ones mask byte keeps a byte value. -/
theorem land255_self : ∀ x < 256, Nat.land x 255 = x := by decide

/-- Helper: the /31 mask byte is idempotent on bytes. -/
theorem land254_idem : ∀ x < 256, Nat.land (Nat.land x 254) 254 = Nat.land x 254 := by
  decide

/-- Helper: a byte masked by 254 is at most 254. -/
theorem land254_le : ∀ x < 256, Nat.land x 254 ≤ 254 := by decide

/-- Helper: the successor of a 254-masked byte masks back to it. -/
theorem land254_succ : ∀ x < 256, Nat.land (Nat.land x 254 + 1) 254 = Nat.land x 254 := by
  decide

/-- Helper: two past a 254-masked byte (when no carry occurs) masks to a
different value. -/
theorem land254_two_ne :
    ∀ x < 256, Nat.land x 254 ≠ 254 →
      Nat.land (Nat.land x 254 + 2) 254 ≠ Nat.land x 254 := by decide

/-- Helper: incrementing three bytes yields three bytes. -/
theorem ipIncRev_three (x y z : Nat) : ∃ p q r, ipIncRev [x, y, z] = [p, q, r] := by
  simp only [ipIncRev]
  split_ifs <;> exact ⟨_, _, _, rfl⟩

/-- C10: expanding any /31 network yields the empty list — the loop
enumerates exactly the two addresses of the block, and the
strip-first-and-last step then removes both. -/
theorem cidr_slash31_empty (a b c d : Nat)
    (ha : a < 256) (hb : b < 256) (hc : c < 256) (hd : d < 256) :
    ipListFromParsed [a, b, c, d] 31 = [] := by
  have hm : maskBytes 31 = [255, 255, 255, 254] := by decide
  set e := Nat.land d 254 with he
  have hee : Nat.land e 254 = e := land254_idem d hd
  have hele : e ≤ 254 := land254_le d hd
  have he1 : (e + 1) % 256 = e + 1 := Nat.mod_eq_of_lt (by omega)
  have hnet : ipMask [a, b, c, d] [255, 255, 255, 254] = [a, b, c, e] := by
    simp [ipMask, land255_self a ha, land255_self b hb, land255_self c hc, he]
  have hc1 : ipMask [a, b, c, e] [255, 255, 255, 254] = [a, b, c, e] := by
    simp [ipMask, land255_self a ha, land255_self b hb, land255_self c hc, hee]
  have hinc1 : ipInc [a, b, c, e] = [a, b, c, e + 1] := by
    simp [ipInc, ipIncRev, he1]
  have hc2 : ipMask [a, b, c, e + 1] [255, 255, 255, 254] = [a, b, c, e] := by
    simp [ipMask, land255_self a ha, land255_self b hb, land255_self c hc, he,
      land254_succ d hd]
  have hstop : cidrLoop [a, b, c, e] [255, 255, 255, 254] (ipInc [a, b, c, e + 1])
      (2 ^ 32 - 2 + 1) = [] := by
    by_cases h254 : e = 254
    · obtain ⟨p, q, r, hpqr⟩ := ipIncRev_three c b a
      have hrev : ipIncRev [255, c, b, a] = 0 :: ipIncRev [c, b, a] := by
        rw [ipIncRev]
        norm_num
      have hinc2 : ipInc [a, b, c, e + 1] = [r, q, p, 0] := by
        rw [h254]
        show (ipIncRev ([a, b, c, 255].reverse)).reverse = [r, q, p, 0]
        rw [show [a, b, c, (255 : Nat)].reverse = [255, c, b, a] from rfl, hrev, hpqr]
        rfl
      rw [hinc2, cidrLoop_succ, if_neg ?_]
      intro hcontra
      have hlast := congrArg (fun l => l.getD 3 0) hcontra
      rw [h254] at hlast
      simp [ipMask] at hlast
    · have he2 : (e + 2) % 256 = e + 2 := Nat.mod_eq_of_lt (by omega)
      have hinc2 : ipInc [a, b, c, e + 1] = [a, b, c, e + 2] := by
        simp [ipInc, ipIncRev]
        rw [show e + 1 + 1 = e + 2 from rfl, he2]
        simp
      rw [hinc2, cidrLoop_succ, if_neg ?_]
      intro hcontra
      have hlast := congrArg (fun l => l.getD 3 0) hcontra
      simp [ipMask] at hlast
      exact land254_two_ne d hd h254 hlast
  have hloop : cidrLoop [a, b, c, e] [255, 255, 255, 254] [a, b, c, e] (2 ^ 32 + 1) =
      [ipToString [a, b, c, e], ipToString [a, b, c, e + 1]] := by
    rw [show (2 : Nat) ^ 32 + 1 = (2 ^ 32 - 1 + 1) + 1 by norm_num]
    rw [cidrLoop_succ, if_pos hc1, hinc1]
    rw [cidrLoop_succ, if_pos hc2]
    rw [show (2 : Nat) ^ 32 - 1 = 2 ^ 32 - 2 + 1 by norm_num]
    rw [hstop]
  unfold ipListFromParsed
  dsimp only
  rw [hm, hnet, hloop]
  rfl

/-- Witness for C10: the concrete /31 block `10.0.0.4/31` expands to
nothing. -/
theorem cidr_slash31_empty_witness : ipListFromParsed [10, 0, 0, 4] 31 = [] :=
  cidr_slash31_empty 10 0 0 4 (by decide) (by decide) (by decide) (by decide)

/-! ### Bug-value selection (src/cmd/scan_proxy.go lines 321-336 in
runScanProxy; src/cmd/scan_cdn_ssl.go lines 74-88 in scanCdnSsl — the two
blocks are identical) -/

/-- Embedding of `regexpIsIP.MatchString` for the pattern `\d+$`: the string
matches exactly when it is non-empty and its last character is an ASCII
decimal digit. -/
def endsWithDigit (s : List Char) : Bool :=
  match s.getLast? with
  | some ch => ch.isDigit
  | none => false

/-- Embedding of the bug-selection block: start from the configured flag;
when it is empty, take the target for hosts matching `\d+$` and the host
itself otherwise; finally, a configured root path `/` overrides the bug
with the target unconditionally. -/
def bugValue (flagBug target path proxyHost : List Char) : List Char :=
  let bug := flagBug
  let bug :=
    if bug = [] then
      (if endsWithDigit proxyHost then target else proxyHost)
    else bug
  if path = ['/'] then target else bug

/-- Modelled from the spec: "the relay is addressed by IP" — the relay host
string is a dotted-quad IPv4 address. -/
def isIPv4Addr (s : List Char) : Bool := (parseIPv4 s).isSome

/-- Counterexample for C8: the host `ns1` is not an IP address, no explicit
bug is configured and the path is not the root path, yet the code selects
the target (because `ns1` ends in a digit), not the relay hostname as the
claim states. -/
theorem bug_default_counterexample :
    isIPv4Addr ("ns1".toList) = false ∧
    bugValue [] ("target.example".toList) ("/x".toList) ("ns1".toList) ≠ "ns1".toList ∧
    bugValue [] ("target.example".toList) ("/x".toList) ("ns1".toList) =
      "target.example".toList := by
  refine ⟨by decide, by decide, by decide⟩

/-- C8 (amended): with no explicit bug and a non-root path, the bug is the
target when the relay host matches the code's IP test `\d+$` (last
character a decimal digit) and the relay hostname itself otherwise; an
explicit bug is kept; and a root path `/` always forces the target. -/
theorem bug_default_selection (fb t p h : List Char) :
    (p = ['/'] → bugValue fb t p h = t) ∧
    (p ≠ ['/'] → fb ≠ [] → bugValue fb t p h = fb) ∧
    (p ≠ ['/'] → fb = [] → endsWithDigit h = true → bugValue fb t p h = t) ∧
    (p ≠ ['/'] → fb = [] → endsWithDigit h = false → bugValue fb t p h = h) := by
  refine ⟨?_, ?_, ?_, ?_⟩ <;> intros <;> simp_all [bugValue]

/-- Witness for C8 at concrete inputs: a root path forces the target even
for a domain-form host with an explicit bug configured. -/
theorem bug_default_selection_witness :
    bugValue ("bug.example".toList) ("t.example".toList) ("/".toList)
      ("relay.example".toList) = "t.example".toList :=
  (bug_default_selection ("bug.example".toList) ("t.example".toList)
    ("/".toList) ("relay.example".toList)).1 rfl

/-! ### Success recording (src/pkg/queuescanner/queuescanner.go lines
140-154, Ctx.ScanSuccess) -/

/-- Mutable context state touched by `ScanSuccess`: the success counter and
the content of the output file, as the list of appended lines. -/
structure CtxFileState where
  scanSuccessCount : Nat
  outputFile : List Char
  fileLines : List (List Char)
deriving DecidableEq, Repr

/-- Observable file-path events of one `ScanSuccess` call, in order. -/
inductive FileEvent where
  | lock
  | openAttempt
  | writeLine (s : List Char)
  | closeFile
  | unlock
deriving DecidableEq, Repr

/-- Embedding of `Ctx.ScanSuccess` (queuescanner.go lines 140-154): when the
argument is a string and an output file is configured, the mutex is taken,
the file is opened in append-create mode, and — only when the open
succeeded — the line is written and the file closed; the open error is
tested and otherwise dropped.  The success counter is then incremented
unconditionally.  The function returns the new state and the emitted file
events; it has no error outcome, mirroring the `void` Go method. -/
def scanSuccessStep (st : CtxFileState) (isString : Bool) (s : List Char)
    (openFails : Bool) : CtxFileState × List FileEvent :=
  let (st, evs) :=
    if isString && st.outputFile ≠ [] then
      if openFails then
        ({ st with fileLines := st.fileLines },
          [FileEvent.lock, FileEvent.openAttempt, FileEvent.unlock])
      else
        ({ st with fileLines := st.fileLines ++ [s] },
          [FileEvent.lock, FileEvent.openAttempt, FileEvent.writeLine s,
            FileEvent.closeFile, FileEvent.unlock])
    else (st, [])
  ({ st with scanSuccessCount := st.scanSuccessCount + 1 }, evs)

/-- C9: every `ScanSuccess` call increments the success counter by exactly
one, in particular when the file open fails; a failed open leaves the file
untouched and is swallowed (the call still completes normally, emitting
only lock—open—unlock); a successful append writes exactly the one line
inside a full lock—open—write—close—unlock cycle. -/
theorem scan_success_increments (st : CtxFileState) (isString : Bool)
    (s : List Char) (openFails : Bool) :
    ((scanSuccessStep st isString s openFails).1.scanSuccessCount =
      st.scanSuccessCount + 1) ∧
    (openFails = true →
      (scanSuccessStep st isString s openFails).1.fileLines = st.fileLines) ∧
    (openFails = true → isString = true → st.outputFile ≠ [] →
      (scanSuccessStep st isString s openFails).2 =
        [FileEvent.lock, FileEvent.openAttempt, FileEvent.unlock]) ∧
    (openFails = false → isString = true → st.outputFile ≠ [] →
      (scanSuccessStep st isString s openFails).1.fileLines = st.fileLines ++ [s] ∧
      (scanSuccessStep st isString s openFails).2 =
        [FileEvent.lock, FileEvent.openAttempt, FileEvent.writeLine s,
          FileEvent.closeFile, FileEvent.unlock]) := by
  refine ⟨?_, ?_, ?_, ?_⟩ <;> intros <;> simp_all [scanSuccessStep] <;>
    split_ifs <;> simp_all

/-- Witness for C9: a failing open on a configured output file still bumps
the counter from 5 to 6 and leaves the file lines untouched. -/
theorem scan_success_increments_witness :
    ((scanSuccessStep ⟨5, "out.txt".toList, []⟩ true ("r".toList) true).1.scanSuccessCount =
      5 + 1) ∧
    (scanSuccessStep ⟨5, "out.txt".toList, []⟩ true ("r".toList) true).1.fileLines =
      ([] : List (List Char)) :=
  ⟨(scan_success_increments ⟨5, "out.txt".toList, []⟩ true ("r".toList) true).1,
    (scan_success_increments ⟨5, "out.txt".toList, []⟩ true ("r".toList) true).2.1 rfl⟩

/-! ### Queue scanner engine model (src/pkg/queuescanner/queuescanner.go)

A small-step interleaving model of `NewQueueScanner`/`Add`/`Start` and the
worker body `run`.  Each action runs one scheduled goroutine for one
atomic slice of its program; consecutive instructions of the same
goroutine are grouped where no other goroutine can observe intermediate
states, so every trace of the model corresponds to a legal Go schedule.
The crucial fidelity point: `run` executes `s.wg.Add(1)` as its own first
instruction *inside* the spawned goroutine (line 258), so a worker that
has not yet been scheduled has not yet registered with the `WaitGroup`. -/

/-- Program counter of the main goroutine inside `Start` (lines 308-320):
pushing target `k`, closing the queue, waiting on the `WaitGroup`, or
returned. -/
inductive MainPC where
  | push (k : Nat)
  | closeQ
  | waitQ
  | done
deriving DecidableEq, Repr

/-- Program counter of a worker goroutine running `run` (lines 257-275):
not yet scheduled (its `wg.Add(1)` has not executed), in the receive loop,
or exited. -/
inductive WorkerPC where
  | init
  | recv
  | finished
deriving DecidableEq, Repr

/-- Global configuration of the engine model. -/
structure QSConfig where
  main : MainPC
  workers : List WorkerPC
  queue : List Nat
  closed : Bool
  wg : Nat
  completed : Nat
  succ : Nat
  processed : List Nat
deriving DecidableEq, Repr

/-- Schedule action: run the main goroutine or worker `i` for one step. -/
inductive QSAction where
  | mainStep
  | workerStep (i : Nat)
deriving DecidableEq, Repr

/-- Initial configuration after `NewQueueScanner(threads, scanFunc)` and
`Add`: the workers are spawned but none has necessarily run yet, the
buffered queue (capacity `threads*2`) is empty, and all counters are 0. -/
def initQS (threads : Nat) : QSConfig :=
  { main := .push 0, workers := List.replicate threads .init, queue := [],
    closed := false, wg := 0, completed := 0, succ := 0, processed := [] }

/-- One interleaving step.  `targets` is the `dataList`, `threads` the pool
size (queue capacity `threads*2`), `probe` tells whether the scan of a
target calls `ScanSuccess`.  `none` means the scheduled goroutine is
blocked (full queue on send, empty open queue on receive, non-zero
`WaitGroup` on `Wait`) or has nothing left to run. -/
def stepQS (targets : List Nat) (threads : Nat) (probe : Nat → Bool)
    (cfg : QSConfig) : QSAction → Option QSConfig
  | .mainStep =>
    match cfg.main with
    | .push k =>
      match targets.get? k with
      | some t =>
        if cfg.queue.length < threads * 2 then
          some { cfg with queue := cfg.queue ++ [t], main := .push (k + 1) }
        else none
      | none => some { cfg with main := .closeQ }
    | .closeQ => some { cfg with closed := true, main := .waitQ }
    | .waitQ => if cfg.wg = 0 then some { cfg with main := .done } else none
    | .done => none
  | .workerStep i =>
    match cfg.workers.get? i with
    | some .init =>
      some { cfg with wg := cfg.wg + 1, workers := cfg.workers.set i .recv }
    | some .recv =>
      match cfg.queue with
      | t :: rest =>
        some { cfg with queue := rest,
                        processed := cfg.processed ++ [t],
                        succ := cfg.succ + (if probe t then 1 else 0),
                        completed := cfg.completed + 1 }
      | [] =>
        if cfg.closed then
          some { cfg with wg := cfg.wg - 1, workers := cfg.workers.set i .finished }
        else none
    | _ => none

/-- Runs a schedule from a configuration; `none` as soon as a scheduled
step is blocked. -/
def runQS (targets : List Nat) (threads : Nat) (probe : Nat → Bool)
    (cfg : QSConfig) : List QSAction → Option QSConfig
  | [] => some cfg
  | a :: rest =>
    match stepQS targets threads probe cfg a with
    | some cfg2 => runQS targets threads probe cfg2 rest
    | none => none

/-- C1 (failing execution): with one target and one worker there is a legal
schedule — main pushes the target into the buffered queue, closes it, and
reaches `wg.Wait()` before the worker goroutine has run its `wg.Add(1)` —
in which `Start()` returns (`main = done`) while the completed counter is
still 0 and nothing has been processed, although the target list has
length 1.  The claim requires the completed counter to equal 1 at that
point. -/
theorem start_can_return_before_processing :
    ∃ final : QSConfig,
      runQS [7] 1 (fun _ => true) (initQS 1)
          [.mainStep, .mainStep, .mainStep, .mainStep] = some final ∧
      final.main = MainPC.done ∧
      final.completed = 0 ∧
      final.processed = [] ∧
      ([7] : List Nat).length = 1 :=
  ⟨_, rfl, rfl, rfl, rfl, rfl⟩

/-- Sanity check of the model: under a fair schedule the same run processes
its single target and finishes with completed = 1 and success = 1. -/
theorem qs_model_fair_schedule_ok :
    ∃ final : QSConfig,
      runQS [7] 1 (fun _ => true) (initQS 1)
          [.workerStep 0, .mainStep, .mainStep, .mainStep,
            .workerStep 0, .workerStep 0, .mainStep] = some final ∧
      final.main = MainPC.done ∧
      final.completed = 1 ∧
      final.succ = 1 ∧
      final.processed = [7] :=
  ⟨_, rfl, rfl, rfl, rfl, rfl⟩

/-! ### Payload template rendering (src/cmd/scan_proxy.go lines 259-268 and
184-195; src/cmd/scan_cdn_ssl.go lines 199-209 and 146-157) -/

/-- Fuel-driven core of Go `strings.ReplaceAll(s, p, v)` for a non-empty
pattern: scan left to right, replacing every non-overlapping occurrence of
`p` by `v` and never rescanning an inserted `v` in the same pass.  The fuel
is the length of `s`, which every call below supplies; all patterns used by
the scanner are non-empty, so Go's empty-pattern behaviour is not
modelled. -/
def replaceAllAux (p v : List Char) : Nat → List Char → List Char
  | 0, s => s
  | _ + 1, [] => []
  | fuel + 1, c :: s =>
    if p.isPrefixOf (c :: s) then v ++ replaceAllAux p v fuel ((c :: s).drop p.length)
    else c :: replaceAllAux p v fuel s

/-- Embedding of Go `strings.ReplaceAll` (non-empty pattern). -/
def replaceAll (s p v : List Char) : List Char :=
  replaceAllAux p v s.length s

/-- Helper: the helper ignores fuel on the empty string. -/
theorem replaceAllAux_nil (p v : List Char) (f : Nat) :
    replaceAllAux p v f [] = [] := by
  cases f <;> rfl

/-- Helper: unfolding equation of the helper on a cons with positive fuel. -/
theorem replaceAllAux_cons (p v : List Char) (f : Nat) (c : Char) (s : List Char) :
    replaceAllAux p v (f + 1) (c :: s) =
      (if p.isPrefixOf (c :: s) then v ++ replaceAllAux p v f ((c :: s).drop p.length)
      else c :: replaceAllAux p v f s) := rfl

/-- Helper: with enough fuel the exact amount is irrelevant. -/
theorem replaceAllAux_congr (p v : List Char) (hp : p ≠ []) :
    ∀ (f g : Nat) (s : List Char), s.length ≤ f → s.length ≤ g →
      replaceAllAux p v f s = replaceAllAux p v g s := by
  intro f
  induction f with
  | zero =>
    intro g s hf _
    have : s = [] := List.length_eq_zero.mp (Nat.le_zero.mp hf)
    subst this
    rw [replaceAllAux_nil, replaceAllAux_nil]
  | succ f ih =>
    intro g s hf hg
    cases s with
    | nil => rw [replaceAllAux_nil, replaceAllAux_nil]
    | cons c s =>
      cases g with
      | zero => simp at hg
      | succ g =>
        rw [replaceAllAux_cons, replaceAllAux_cons]
        have hplen : 1 ≤ p.length := by
          cases p with
          | nil => exact absurd rfl hp
          | cons _ _ => simp
        split_ifs
        · have hlen : ((c :: s).drop p.length).length ≤ f := by
            simp only [List.length_drop, List.length_cons] at *
            omega
          have hlen2 : ((c :: s).drop p.length).length ≤ g := by
            simp only [List.length_drop, List.length_cons] at *
            omega
          rw [ih g _ hlen hlen2]
        · have hlen : s.length ≤ f := by simp at hf; omega
          have hlen2 : s.length ≤ g := by simp at hg; omega
          rw [ih g s hlen hlen2]

/-- Helper: unfolding equation of `replaceAll` on a cons cell. -/
theorem replaceAll_cons (p v : List Char) (hp : p ≠ []) (c : Char) (s : List Char) :
    replaceAll (c :: s) p v =
      (if p.isPrefixOf (c :: s) then v ++ replaceAll ((c :: s).drop p.length) p v
      else c :: replaceAll s p v) := by
  show replaceAllAux p v (s.length + 1) (c :: s) = _
  rw [replaceAllAux_cons]
  have hplen : 1 ≤ p.length := by
    cases p with
    | nil => exact absurd rfl hp
    | cons _ _ => simp
  split_ifs
  · rw [replaceAllAux_congr p v hp s.length ((c :: s).drop p.length).length]
    · rfl
    · simp only [List.length_drop, List.length_cons]
      omega
    · exact Nat.le_refl _
  · rfl

/-- Helper: a leading occurrence of the pattern is replaced and scanning
continues after it. -/
theorem replaceAll_token {p : List Char} (hp : p ≠ []) (rest v : List Char) :
    replaceAll (p ++ rest) p v = v ++ replaceAll rest p v := by
  cases p with
  | nil => exact absurd rfl hp
  | cons q qs =>
    rw [List.cons_append, replaceAll_cons _ _ hp]
    rw [if_pos (List.isPrefixOf_iff_prefix.mpr (by exact List.prefix_append _ _))]
    rw [show ((q :: (qs ++ rest)).drop (q :: qs).length) = rest from by
      rw [show (q :: (qs ++ rest)) = (q :: qs) ++ rest from rfl]
      exact List.drop_left _ _]

/-- Helper: a non-matching head character is kept. -/
theorem replaceAll_skip_char {p : List Char} (hp : p ≠ []) {c : Char} {s : List Char}
    (h : ¬ p.isPrefixOf (c :: s) = true) (v : List Char) :
    replaceAll (c :: s) p v = c :: replaceAll s p v := by
  rw [replaceAll_cons _ _ hp, if_neg h]

/-- Helper: when the pattern never occurs, replacement is the identity. -/
theorem replaceAll_eq_self {p : List Char} (hp : p ≠ []) {s : List Char}
    (h : containsStr s p = false) (v : List Char) :
    replaceAll s p v = s := by
  induction s with
  | nil => rfl
  | cons c s ih =>
    rw [containsStr] at h
    simp only [Bool.or_eq_false_iff] at h
    rw [replaceAll_skip_char hp (by simp [h.1]) v, ih h.2]

/-- Helper: replacement of a bracket-headed pattern walks over any
bracket-free block unchanged. -/
theorem replaceAll_append_bracketfree {p m : List Char}
    (hm : ∀ c ∈ m, c ≠ '[') (hp : p[0]? = some '[') (rest v : List Char) :
    replaceAll (m ++ rest) p v = m ++ replaceAll rest p v := by
  have hpne : p ≠ [] := by
    intro hcontra
    rw [hcontra] at hp
    simp at hp
  induction m with
  | nil => simp
  | cons c m ih =>
    have hne : ¬ p.isPrefixOf (c :: (m ++ rest)) = true := by
      intro habs
      have hpre := List.isPrefixOf_iff_prefix.mp habs
      have h0 : p[0]? = (c :: (m ++ rest))[0]? := by
        obtain ⟨u, hu⟩ := hpre
        rw [← hu, List.getElem?_append_left]
        cases p with
        | nil => exact absurd rfl hpne
        | cons _ _ => simp
      rw [hp] at h0
      exact hm c (by simp) (by simpa using h0.symm)
    calc replaceAll ((c :: m) ++ rest) p v
        = c :: replaceAll (m ++ rest) p v := replaceAll_skip_char hpne hne v
      _ = c :: (m ++ replaceAll rest p v) := by
          rw [ih (fun x hx => hm x (by simp [hx]))]
      _ = (c :: m) ++ replaceAll rest p v := rfl

/-- Helper: replacement walks over a block `t` unchanged when, at every
start position inside `t`, the pattern visibly mismatches within `t`
itself (so no occurrence can start inside `t`, whatever follows). -/
theorem replaceAll_append_mismatch {p : List Char} (hpne : p ≠ []) {t : List Char}
    (h : ∀ i < t.length, ∃ j < p.length, i + j < t.length ∧ p[j]? ≠ t[i + j]?)
    (rest v : List Char) :
    replaceAll (t ++ rest) p v = t ++ replaceAll rest p v := by
  induction t with
  | nil => simp
  | cons c t ih =>
    have hne : ¬ p.isPrefixOf (c :: t ++ rest) = true := by
      intro habs
      obtain ⟨j, hj, hjt, hnej⟩ := h 0 (by simp)
      obtain ⟨u, hu⟩ := List.isPrefixOf_iff_prefix.mp habs
      apply hnej
      have hjt2 : j < (c :: t).length := by simpa using hjt
      calc p[j]? = ((c :: t) ++ rest)[j]? := by
            rw [← hu]
            exact (List.getElem?_append_left hj).symm
        _ = (c :: t)[j]? := List.getElem?_append_left hjt2
        _ = (c :: t)[0 + j]? := by rw [Nat.zero_add]
    have hshift : ∀ i < t.length, ∃ j < p.length, i + j < t.length ∧ p[j]? ≠ t[i + j]? := by
      intro i hi
      obtain ⟨j, hj, hjt, hnej⟩ := h (i + 1) (by simp; omega)
      refine ⟨j, hj, by simp at hjt; omega, ?_⟩
      rw [show (i + 1) + j = (i + j) + 1 from by omega] at hnej
      simpa using hnej
    calc replaceAll ((c :: t) ++ rest) p v
        = c :: replaceAll (t ++ rest) p v := replaceAll_skip_char hpne hne v
      _ = c :: (t ++ replaceAll rest p v) := by rw [ih hshift]
      _ = (c :: t) ++ replaceAll rest p v := rfl

/-- Helper: a bracket-free string contains no pattern that includes a
bracket. -/
theorem containsStr_false_of_bracketfree {s t : List Char}
    (hs : ∀ c ∈ s, c ≠ '[') (ht : '[' ∈ t) : containsStr s t = false := by
  induction s with
  | nil =>
    cases t with
    | nil => simp at ht
    | cons x xs => rfl
  | cons c s ih =>
    rw [containsStr]
    simp only [Bool.or_eq_false_iff]
    refine ⟨?_, ih (fun x hx => hs x (by simp [hx]))⟩
    cases hpre : t.isPrefixOf (c :: s) with
    | false => rfl
    | true =>
      have hsub := (List.isPrefixOf_iff_prefix.mp hpre).subset
      exact absurd rfl (hs '[' (hsub ht))

/-- Placeholder token `[method]`. -/
def methodTok : List Char := "[method]".toList

/-- Placeholder token `[path]`. -/
def pathTok : List Char := "[path]".toList

/-- Placeholder token `[protocol]`. -/
def protocolTok : List Char := "[protocol]".toList

/-- Placeholder token `[scheme]`. -/
def schemeTok : List Char := "[scheme]".toList

/-- Placeholder token `[bug]`. -/
def bugTok : List Char := "[bug]".toList

/-- Placeholder token `[host]`. -/
def hostTok : List Char := "[host]".toList

/-- Placeholder token `[crlf]`. -/
def crlfTok : List Char := "[crlf]".toList

/-- All placeholder tokens of the payload template language. -/
def placeholderTokens : List (List Char) :=
  [methodTok, pathTok, protocolTok, schemeTok, bugTok, hostTok, crlfTok]

/-- Embedding of `getScanProxyPayloadDecoded` (scan_proxy.go lines 259-268)
with the flag values as parameters and the bug argument supplied:
sequential `ReplaceAll` for `[method]`, `[path]`, `[protocol]`, `[bug]`. -/
def getScanProxyPayloadDecoded (payload method path protocol bug : List Char) : List Char :=
  replaceAll (replaceAll (replaceAll (replaceAll payload methodTok method)
    pathTok path) protocolTok protocol) bugTok bug

/-- Embedding of the per-target substitutions of the exchange goroutines
(scan_proxy.go lines 186-188, scan_cdn_ssl.go lines 148-150): `[host]` to
the target, then `[crlf]` to the two-byte CRLF. -/
def exchangeRender (payload target : List Char) : List Char :=
  replaceAll (replaceAll payload hostTok target) crlfTok ('\r' :: '\n' :: [])

/-- Full rendering pipeline of the plain relay probe. -/
def renderProxyFull (tmpl me pa pr bg ho : List Char) : List Char :=
  exchangeRender (getScanProxyPayloadDecoded tmpl me pa pr bg) ho

/-- Embedding of `getScanCdnSslPayloadDecoded` (scan_cdn_ssl.go lines
199-209): sequential `ReplaceAll` for `[method]`, `[path]`, `[scheme]`,
`[protocol]`, `[bug]`. -/
def getScanCdnSslPayloadDecoded (payload method path scheme protocol bug : List Char) : List Char :=
  replaceAll (replaceAll (replaceAll (replaceAll (replaceAll payload methodTok method)
    pathTok path) schemeTok scheme) protocolTok protocol) bugTok bug

/-- Full rendering pipeline of the CDN-TLS probe. -/
def renderCdnFull (tmpl me pa sc pr bg ho : List Char) : List Char :=
  exchangeRender (getScanCdnSslPayloadDecoded tmpl me pa sc pr bg) ho

/-- Default payload template shared by the proxy and CDN-TLS commands
(scan_proxy.go line 88, scan_cdn_ssl.go line 61). -/
def defaultPayloadTemplate : List Char :=
  "[method] [path] [protocol][crlf]Host: [host][crlf]Upgrade: websocket[crlf][crlf]".toList

/-- Template residue after the `[method]` occurrence. -/
def tmplRest1 : List Char :=
  " [path] [protocol][crlf]Host: [host][crlf]Upgrade: websocket[crlf][crlf]".toList

/-- Template residue after the `[path]` occurrence. -/
def tmplRest2 : List Char :=
  " [protocol][crlf]Host: [host][crlf]Upgrade: websocket[crlf][crlf]".toList

/-- Template residue after the `[protocol]` occurrence. -/
def tmplRest3 : List Char :=
  "[crlf]Host: [host][crlf]Upgrade: websocket[crlf][crlf]".toList

/-- Template residue after the `[host]` occurrence. -/
def tmplRest4 : List Char :=
  "[crlf]Upgrade: websocket[crlf][crlf]".toList

/-- Shape of the fully rendered default template. -/
def renderedShape (me pa pr ho : List Char) : List Char :=
  me ++ ([' '] ++ (pa ++ ([' '] ++ (pr ++ (['\r', '\n'] ++
    ("Host: ".toList ++ (ho ++ "\r\nUpgrade: websocket\r\n\r\n".toList)))))))

/-- Helper: pass 1 — `[method]`. -/
theorem renderPassMethod (me : List Char) :
    replaceAll defaultPayloadTemplate methodTok me = me ++ tmplRest1 := by
  rw [show defaultPayloadTemplate = methodTok ++ tmplRest1 from rfl]
  rw [replaceAll_token (by decide)]
  rw [replaceAll_eq_self (by decide) (by decide)]

/-- Helper: pass 2 — `[path]`. -/
theorem renderPassPath (me pa : List Char) (hme : ∀ c ∈ me, c ≠ '[') :
    replaceAll (me ++ tmplRest1) pathTok pa =
      me ++ ([' '] ++ (pa ++ tmplRest2)) := by
  rw [replaceAll_append_bracketfree hme rfl]
  rw [show tmplRest1 = [' '] ++ (pathTok ++ tmplRest2) from rfl]
  rw [replaceAll_append_bracketfree (by decide) rfl]
  rw [replaceAll_token (by decide)]
  rw [replaceAll_eq_self (by decide) (by decide)]

/-- Helper: pass 3 — `[protocol]`. -/
theorem renderPassProtocol (me pa pr : List Char)
    (hme : ∀ c ∈ me, c ≠ '[') (hpa : ∀ c ∈ pa, c ≠ '[') :
    replaceAll (me ++ ([' '] ++ (pa ++ tmplRest2))) protocolTok pr =
      me ++ ([' '] ++ (pa ++ ([' '] ++ (pr ++ tmplRest3)))) := by
  rw [replaceAll_append_bracketfree hme rfl]
  rw [replaceAll_append_bracketfree (by decide) rfl]
  rw [replaceAll_append_bracketfree hpa rfl]
  rw [show tmplRest2 = [' '] ++ (protocolTok ++ tmplRest3) from rfl]
  rw [replaceAll_append_bracketfree (by decide) rfl]
  rw [replaceAll_token (by decide)]
  rw [replaceAll_eq_self (by decide) (by decide)]

/-- Helper: the `[scheme]` pass leaves the default-template intermediate
unchanged (the default template has no `[scheme]` occurrence). -/
theorem renderPassScheme (me pa sc : List Char)
    (hme : ∀ c ∈ me, c ≠ '[') (hpa : ∀ c ∈ pa, c ≠ '[') :
    replaceAll (me ++ ([' '] ++ (pa ++ tmplRest2))) schemeTok sc =
      me ++ ([' '] ++ (pa ++ tmplRest2)) := by
  rw [replaceAll_append_bracketfree hme rfl]
  rw [replaceAll_append_bracketfree (by decide) rfl]
  rw [replaceAll_append_bracketfree hpa rfl]
  rw [replaceAll_eq_self (by decide) (by decide)]

/-- Helper: the `[bug]` pass leaves the default-template intermediate
unchanged (the default template has no `[bug]` occurrence). -/
theorem renderPassBug (me pa pr bg : List Char)
    (hme : ∀ c ∈ me, c ≠ '[') (hpa : ∀ c ∈ pa, c ≠ '[')
    (hpr : ∀ c ∈ pr, c ≠ '[') :
    replaceAll (me ++ ([' '] ++ (pa ++ ([' '] ++ (pr ++ tmplRest3))))) bugTok bg =
      me ++ ([' '] ++ (pa ++ ([' '] ++ (pr ++ tmplRest3)))) := by
  rw [replaceAll_append_bracketfree hme rfl]
  rw [replaceAll_append_bracketfree (by decide) rfl]
  rw [replaceAll_append_bracketfree hpa rfl]
  rw [replaceAll_append_bracketfree (by decide) rfl]
  rw [replaceAll_append_bracketfree hpr rfl]
  rw [replaceAll_eq_self (by decide) (by decide)]

/-- Helper: pass 5 — `[host]`. -/
theorem renderPassHost (me pa pr ho : List Char)
    (hme : ∀ c ∈ me, c ≠ '[') (hpa : ∀ c ∈ pa, c ≠ '[')
    (hpr : ∀ c ∈ pr, c ≠ '[') :
    replaceAll (me ++ ([' '] ++ (pa ++ ([' '] ++ (pr ++ tmplRest3))))) hostTok ho =
      me ++ ([' '] ++ (pa ++ ([' '] ++ (pr ++ ("[crlf]Host: ".toList ++
        (ho ++ tmplRest4)))))) := by
  rw [replaceAll_append_bracketfree hme rfl]
  rw [replaceAll_append_bracketfree (by decide) rfl]
  rw [replaceAll_append_bracketfree hpa rfl]
  rw [replaceAll_append_bracketfree (by decide) rfl]
  rw [replaceAll_append_bracketfree hpr rfl]
  rw [show tmplRest3 = "[crlf]Host: ".toList ++ (hostTok ++ tmplRest4) from rfl]
  rw [replaceAll_append_mismatch (by decide) (by decide)]
  rw [replaceAll_token (by decide)]
  rw [replaceAll_eq_self (by decide) (by decide)]

/-- Helper: pass 6 — `[crlf]`. -/
theorem renderPassCrlf (me pa pr ho : List Char)
    (hme : ∀ c ∈ me, c ≠ '[') (hpa : ∀ c ∈ pa, c ≠ '[')
    (hpr : ∀ c ∈ pr, c ≠ '[') (hho : ∀ c ∈ ho, c ≠ '[') :
    replaceAll (me ++ ([' '] ++ (pa ++ ([' '] ++ (pr ++ ("[crlf]Host: ".toList ++
        (ho ++ tmplRest4))))))) crlfTok ('\r' :: '\n' :: []) =
      renderedShape me pa pr ho := by
  rw [replaceAll_append_bracketfree hme rfl]
  rw [replaceAll_append_bracketfree (by decide) rfl]
  rw [replaceAll_append_bracketfree hpa rfl]
  rw [replaceAll_append_bracketfree (by decide) rfl]
  rw [replaceAll_append_bracketfree hpr rfl]
  rw [show "[crlf]Host: ".toList = crlfTok ++ "Host: ".toList from rfl,
    List.append_assoc]
  rw [replaceAll_token (by decide)]
  rw [replaceAll_append_bracketfree (by decide) rfl]
  rw [replaceAll_append_bracketfree hho rfl]
  rw [show replaceAll tmplRest4 crlfTok ('\r' :: '\n' :: []) =
    "\r\nUpgrade: websocket\r\n\r\n".toList from by decide]
  rfl

/-- Helper: bracket-freeness is preserved by concatenation. -/
theorem bracketfree_append {x y : List Char} (hx : ∀ c ∈ x, c ≠ '[')
    (hy : ∀ c ∈ y, c ≠ '[') : ∀ c ∈ x ++ y, c ≠ '[' := by
  intro c hc
  rcases List.mem_append.mp hc with h | h
  exacts [hx c h, hy c h]

/-- Counterexample for C6: with template `[path]` and path value `[method]`
(all substitutions supplied), the `[method]` placeholder token survives the
full relay rendering pipeline, because the `[method]` pass runs before the
`[path]` pass introduces the token; applying those two replacements in the
opposite order yields `GET` instead, so the result also depends on the
order of the sequential replacements. -/
theorem payload_rendering_counterexample :
    renderProxyFull pathTok ("GET".toList) methodTok ("HTTP/1.1".toList)
        ("bug.example".toList) ("target.example".toList) = methodTok ∧
    containsStr (renderProxyFull pathTok ("GET".toList) methodTok ("HTTP/1.1".toList)
        ("bug.example".toList) ("target.example".toList)) methodTok = true ∧
    replaceAll (replaceAll pathTok methodTok ("GET".toList)) pathTok methodTok ≠
      replaceAll (replaceAll pathTok pathTok methodTok) methodTok ("GET".toList) := by
  refine ⟨by decide, by decide, by decide⟩

/-- C6 (amended): rendering is a pure function of the template and values,
and for the default payload template with substitution values free of the
placeholder alphabet (no `[` character), both the relay and the CDN-TLS
pipelines produce the fully substituted request, no placeholder token
survives in the output, and re-rendering the rendered output changes
nothing (idempotence). -/
theorem payload_rendering_default (me pa sc pr bg ho : List Char)
    (hme : ∀ c ∈ me, c ≠ '[') (hpa : ∀ c ∈ pa, c ≠ '[')
    (hsc : ∀ c ∈ sc, c ≠ '[') (hpr : ∀ c ∈ pr, c ≠ '[')
    (hbg : ∀ c ∈ bg, c ≠ '[') (hho : ∀ c ∈ ho, c ≠ '[') :
    renderProxyFull defaultPayloadTemplate me pa pr bg ho = renderedShape me pa pr ho ∧
    renderCdnFull defaultPayloadTemplate me pa sc pr bg ho = renderedShape me pa pr ho ∧
    (∀ tok ∈ placeholderTokens,
      containsStr (renderProxyFull defaultPayloadTemplate me pa pr bg ho) tok = false) ∧
    renderProxyFull (renderProxyFull defaultPayloadTemplate me pa pr bg ho) me pa pr bg ho =
      renderProxyFull defaultPayloadTemplate me pa pr bg ho ∧
    renderCdnFull (renderCdnFull defaultPayloadTemplate me pa sc pr bg ho) me pa sc pr bg ho =
      renderCdnFull defaultPayloadTemplate me pa sc pr bg ho := by
  have hb : ∀ c ∈ renderedShape me pa pr ho, c ≠ '[' := by
    unfold renderedShape
    refine bracketfree_append hme (bracketfree_append ?_
      (bracketfree_append hpa (bracketfree_append ?_
        (bracketfree_append hpr (bracketfree_append ?_
          (bracketfree_append ?_ (bracketfree_append hho ?_)))))))
    all_goals decide
  have htoknone : ∀ tok ∈ placeholderTokens,
      containsStr (renderedShape me pa pr ho) tok = false := by
    intro tok htok
    apply containsStr_false_of_bracketfree hb
    simp only [placeholderTokens, List.mem_cons, List.not_mem_nil, or_false] at htok
    rcases htok with rfl | rfl | rfl | rfl | rfl | rfl | rfl <;> decide
  have hproxy : renderProxyFull defaultPayloadTemplate me pa pr bg ho =
      renderedShape me pa pr ho := by
    unfold renderProxyFull getScanProxyPayloadDecoded exchangeRender
    rw [renderPassMethod, renderPassPath me pa hme,
      renderPassProtocol me pa pr hme hpa, renderPassBug me pa pr bg hme hpa hpr,
      renderPassHost me pa pr ho hme hpa hpr, renderPassCrlf me pa pr ho hme hpa hpr hho]
  have hcdn : renderCdnFull defaultPayloadTemplate me pa sc pr bg ho =
      renderedShape me pa pr ho := by
    unfold renderCdnFull getScanCdnSslPayloadDecoded exchangeRender
    rw [renderPassMethod, renderPassPath me pa hme, renderPassScheme me pa sc hme hpa,
      renderPassProtocol me pa pr hme hpa, renderPassBug me pa pr bg hme hpa hpr,
      renderPassHost me pa pr ho hme hpa hpr, renderPassCrlf me pa pr ho hme hpa hpr hho]
  refine ⟨hproxy, hcdn, ?_, ?_, ?_⟩
  · intro tok htok
    rw [hproxy]
    exact htoknone tok htok
  · rw [hproxy]
    unfold renderProxyFull getScanProxyPayloadDecoded exchangeRender
    rw [replaceAll_eq_self (by decide) (htoknone methodTok (by decide)),
      replaceAll_eq_self (by decide) (htoknone pathTok (by decide)),
      replaceAll_eq_self (by decide) (htoknone protocolTok (by decide)),
      replaceAll_eq_self (by decide) (htoknone bugTok (by decide)),
      replaceAll_eq_self (by decide) (htoknone hostTok (by decide)),
      replaceAll_eq_self (by decide) (htoknone crlfTok (by decide))]
  · rw [hcdn]
    unfold renderCdnFull getScanCdnSslPayloadDecoded exchangeRender
    rw [replaceAll_eq_self (by decide) (htoknone methodTok (by decide)),
      replaceAll_eq_self (by decide) (htoknone pathTok (by decide)),
      replaceAll_eq_self (by decide) (htoknone schemeTok (by decide)),
      replaceAll_eq_self (by decide) (htoknone protocolTok (by decide)),
      replaceAll_eq_self (by decide) (htoknone bugTok (by decide)),
      replaceAll_eq_self (by decide) (htoknone hostTok (by decide)),
      replaceAll_eq_self (by decide) (htoknone crlfTok (by decide))]

/-- Witness for C6 at concrete bracket-free values. -/
theorem payload_rendering_default_witness :
    renderProxyFull defaultPayloadTemplate ("GET".toList) ("/".toList)
        ("HTTP/1.1".toList) ("bug.example".toList) ("target.example".toList) =
      renderedShape ("GET".toList) ("/".toList) ("HTTP/1.1".toList)
        ("target.example".toList) :=
  (payload_rendering_default ("GET".toList) ("/".toList) ("ws://".toList)
    ("HTTP/1.1".toList) ("bug.example".toList) ("target.example".toList)
    (by decide) (by decide) (by decide) (by decide) (by decide) (by decide)).1

end BugscanX
